import Mathlib

/-!
Verification of `src/modules/mod_dirlist.c` (lighttpd2 directory-listing
module) against its natural-language specification.

The embedding translates the C source into executable Lean definitions:
  * `dirlist_format_size`   — the size formatter (mod_dirlist.c:195-233)
  * `classifyEntry` / `classifyAux` / `classify`
                            — the entry filtering/classification loop
                              (mod_dirlist.c:324-371)
  * `try_append_file`       — the HEADER.txt/README.txt inclusion helper
                              (mod_dirlist.c:145-193)
  * `renderListing` / `dirlist`
                            — the HTML assembly and the handler state
                              machine (mod_dirlist.c:235-480)
  * `dirlist_create`        — option parsing (mod_dirlist.c:504-671)

External collaborators that are part of the lighttpd2 tree but not of this
repository snapshot (string encoding, stat cache, mimetype lookup,
strftime) are modelled from the spec, as marked in their doc comments.
Machine integers (`goffset`, i.e. signed 64-bit) are modelled as `Nat`
with explicit bounds where the claims need them.
-/

/-- Character for a decimal digit `n` (the C code writes `n + '0'`). -/
def digitChar (n : Nat) : Char := Char.ofNat (n + 48)

/-- Boolean test for an ASCII decimal digit. -/
def isDigitChar (c : Char) : Bool := 48 ≤ c.toNat && c.toNat ≤ 57

/-- The unit letters of `dirlist_format_size` (mod_dirlist.c:196):
`const gchar unit[] = "BKMGTPE"`. -/
def unitChars : List Char := ['B', 'K', 'M', 'G', 'T', 'P', 'E']

/-- The scaling loop of `dirlist_format_size` (mod_dirlist.c:200-204):
`while (size > 1024) \x7b remaining = size & 1023; size >>= 10; u++; \x7d`.
`size & 1023` is `size % 1024` and `size >>= 10` is `size / 1024`. -/
def sizeScale (size rem u : Nat) : Nat × Nat × Nat :=
  if h : 1024 < size then sizeScale (size / 1024) (size % 1024) (u + 1)
  else (size, rem, u)
termination_by size
decreasing_by exact Nat.div_lt_self (by omega) (by omega)

/-- Embedding of `dirlist_format_size` (mod_dirlist.c:195-233), producing the character
list written into the caller's `sizebuf` (without the trailing NUL).
After the scaling loop: `remaining /= 100; if (remaining > 9) remaining = 9;`
then the saturation step `if (size > 999) \x7b size = 0; remaining = 9; u++; \x7d`,
then 1-3 digits, an optional `.` plus one decimal digit when the unit
pointer moved, and the unit letter. -/
def dirlist_format_size (size : Nat) : List Char :=
  let s := sizeScale size 0 0
  let rem1 := min (s.2.1 / 100) 9
  let sz2 := if 999 < s.1 then 0 else s.1
  let rem2 := if 999 < s.1 then 9 else rem1
  let u2 := if 999 < s.1 then s.2.2 + 1 else s.2.2
  let digits :=
    if 99 < sz2 then
      [digitChar (sz2 / 100), digitChar (sz2 % 100 / 10), digitChar (sz2 % 10)]
    else if 9 < sz2 then
      [digitChar (sz2 / 10), digitChar (sz2 % 10)]
    else
      [digitChar sz2]
  let frac := if u2 ≠ 0 then ['.', digitChar rem2] else []
  digits ++ frac ++ [unitChars.getD u2 'B']

lemma sizeScale_step (size rem u : Nat) (h : 1024 < size) :
    sizeScale size rem u = sizeScale (size / 1024) (size % 1024) (u + 1) := by
  rw [sizeScale]
  simp [h]

lemma sizeScale_stop (size rem u : Nat) (h : size ≤ 1024) :
    sizeScale size rem u = (size, rem, u) := by
  rw [sizeScale]
  simp [Nat.not_lt.mpr h]

lemma sizeScale_bounds :
    ∀ size rem u : Nat, rem ≤ 1023 →
      (sizeScale size rem u).1 ≤ 1024 ∧ (sizeScale size rem u).2.1 ≤ 1023 := by
  intro size
  induction size using Nat.strong_induction_on with
  | _ size ih =>
    intro rem u hrem
    by_cases h : 1024 < size
    · rw [sizeScale_step _ _ _ h]
      exact ih (size / 1024) (Nat.div_lt_self (by omega) (by omega)) _ _
        (by omega)
    · rw [sizeScale_stop _ _ _ (by omega)]
      exact ⟨by omega, hrem⟩

lemma sizeScale_u_bound :
    ∀ (n size rem u : Nat), size < 1000 * 1024 ^ n →
      (sizeScale size rem u).2.2 +
        (if 999 < (sizeScale size rem u).1 then 1 else 0) ≤ u + n := by
  intro n
  induction n with
  | zero =>
    intro size rem u h
    rw [sizeScale_stop _ _ _ (by simp at h; omega)]
    simp only
    have : ¬ 999 < size := by simp at h; omega
    simp [this]
  | succ n ih =>
    intro size rem u h
    by_cases hlt : 1024 < size
    · rw [sizeScale_step _ _ _ hlt]
      have hdiv : size / 1024 < 1000 * 1024 ^ n := by
        rw [Nat.div_lt_iff_lt_mul (by omega)]
        calc size < 1000 * 1024 ^ (n + 1) := h
          _ = 1000 * 1024 ^ n * 1024 := by ring
      have := ih (size / 1024) (size % 1024) (u + 1) hdiv
      omega
    · rw [sizeScale_stop _ _ _ (by omega)]
      simp only
      split <;> omega

lemma isDigitChar_digitChar {n : Nat} (h : n ≤ 9) :
    isDigitChar (digitChar n) = true := by
  interval_cases n <;> decide

lemma digitChar_ne_zero {n : Nat} (h1 : 1 ≤ n) (h2 : n ≤ 9) :
    digitChar n ≠ '0' := by
  interval_cases n <;> decide

lemma unitChars_getD_mem {i : Nat} (h : i ≤ 6) :
    unitChars.getD i 'B' ∈ unitChars := by
  interval_cases i <;> decide

lemma unitChars_getD_ne_B {i : Nat} (h1 : 1 ≤ i) (h2 : i ≤ 6) :
    unitChars.getD i 'B' ≠ 'B' := by
  interval_cases i <;> decide

/-- C9: for every non-negative 64-bit size, `dirlist_format_size` produces
at most 7 characters matching `digits[.digit]unit`: 1-3 decimal digits
with no leading zero, a dot plus one decimal digit exactly when the unit
pointer moved past 'B', and one unit letter from "BKMGTPE"; so the result
always fits the caller's 8-byte `sizebuf` with its NUL terminator
(mod_dirlist.c:294). -/
theorem dirlist_format_size_shape (size : Nat) (h : size < 2 ^ 63) :
    (dirlist_format_size size).length ≤ 7 ∧
    ∃ d f u, dirlist_format_size size = d ++ f ++ [u] ∧
      1 ≤ d.length ∧ d.length ≤ 3 ∧ (∀ c ∈ d, isDigitChar c = true) ∧
      (2 ≤ d.length → d.headD '0' ≠ '0') ∧
      u ∈ unitChars ∧
      ((f = [] ∧ u = 'B') ∨ ∃ c, f = ['.', c] ∧ isDigitChar c = true ∧ u ≠ 'B') := by
  have hbounds := sizeScale_bounds size 0 0 (by omega)
  have hu := sizeScale_u_bound 6 size 0 0 (by
    calc size < 2 ^ 63 := h
      _ < 1000 * 1024 ^ 6 := by norm_num)
  rcases e : sizeScale size 0 0 with ⟨sz, rem, u0⟩
  rw [e] at hbounds hu
  simp only at hbounds hu
  obtain ⟨hsz, hrem⟩ := hbounds
  by_cases hb : 999 < sz
  · -- saturation branch: size = 0, remaining = 9, unit advanced
    rw [if_pos hb] at hu
    have hu6 : u0 + 1 ≤ 6 := by omega
    constructor
    · simp [dirlist_format_size, e, hb]
    · refine ⟨['0'], ['.', '9'], unitChars.getD (u0 + 1) 'B', ?_, ?_, ?_, ?_, ?_, ?_, ?_⟩
      · simp [dirlist_format_size, e, hb]
        decide
      · simp
      · simp
      · intro c hc
        simp at hc
        subst hc
        decide
      · intro hlen
        simp at hlen
      · exact unitChars_getD_mem hu6
      · exact Or.inr ⟨'9', rfl, by decide, unitChars_getD_ne_B (by omega) hu6⟩
  · -- no saturation: sz ≤ 999 after the loop
    rw [if_neg hb] at hu
    simp only [Nat.add_zero] at hu
    have hsz9 : sz ≤ 999 := by omega
    have hrem9 : min (rem / 100) 9 ≤ 9 := by omega
    by_cases hu0 : u0 = 0
    · -- never scaled: no fraction, unit is 'B'
      subst hu0
      by_cases h99 : 99 < sz
      · refine ⟨by simp [dirlist_format_size, e, hb, h99], [digitChar (sz / 100), digitChar (sz % 100 / 10), digitChar (sz % 10)], [], 'B', ?_, by simp, by simp, ?_, ?_, by decide, Or.inl ⟨rfl, rfl⟩⟩
        · simp [dirlist_format_size, e, hb, h99]
          decide
        · intro c hc
          simp at hc
          rcases hc with hc | hc | hc <;> subst hc <;>
            exact isDigitChar_digitChar (by omega)
        · intro _
          simp only [List.headD]
          exact digitChar_ne_zero (by omega) (by omega)
      · by_cases h9 : 9 < sz
        · refine ⟨by simp [dirlist_format_size, e, hb, h99, h9], [digitChar (sz / 10), digitChar (sz % 10)], [], 'B', ?_, by simp, by simp, ?_, ?_, by decide, Or.inl ⟨rfl, rfl⟩⟩
          · simp [dirlist_format_size, e, hb, h99, h9]
            decide
          · intro c hc
            simp at hc
            rcases hc with hc | hc <;> subst hc <;>
              exact isDigitChar_digitChar (by omega)
          · intro _
            simp only [List.headD]
            exact digitChar_ne_zero (by omega) (by omega)
        · refine ⟨by simp [dirlist_format_size, e, hb, h99, h9], [digitChar sz], [], 'B', ?_, by simp, by simp, ?_, ?_, by decide, Or.inl ⟨rfl, rfl⟩⟩
          · simp [dirlist_format_size, e, hb, h99, h9]
            decide
          · intro c hc
            simp at hc
            subst hc
            exact isDigitChar_digitChar (by omega)
          · intro hlen
            simp at hlen
    · -- scaled at least once: fraction digit present, unit beyond 'B'
      have h16 : 1 ≤ u0 := by omega
      have h66 : u0 ≤ 6 := by omega
      by_cases h99 : 99 < sz
      · refine ⟨by simp [dirlist_format_size, e, hb, h99, hu0], [digitChar (sz / 100), digitChar (sz % 100 / 10), digitChar (sz % 10)], ['.', digitChar (min (rem / 100) 9)], unitChars.getD u0 'B', ?_, by simp, by simp, ?_, ?_, unitChars_getD_mem h66, Or.inr ⟨_, rfl, isDigitChar_digitChar hrem9, unitChars_getD_ne_B h16 h66⟩⟩
        · simp [dirlist_format_size, e, hb, h99, hu0]
        · intro c hc
          simp at hc
          rcases hc with hc | hc | hc <;> subst hc <;>
            exact isDigitChar_digitChar (by omega)
        · intro _
          simp only [List.headD]
          exact digitChar_ne_zero (by omega) (by omega)
      · by_cases h9 : 9 < sz
        · refine ⟨by simp [dirlist_format_size, e, hb, h99, h9, hu0], [digitChar (sz / 10), digitChar (sz % 10)], ['.', digitChar (min (rem / 100) 9)], unitChars.getD u0 'B', ?_, by simp, by simp, ?_, ?_, unitChars_getD_mem h66, Or.inr ⟨_, rfl, isDigitChar_digitChar hrem9, unitChars_getD_ne_B h16 h66⟩⟩
          · simp [dirlist_format_size, e, hb, h99, h9, hu0]
          · intro c hc
            simp at hc
            rcases hc with hc | hc <;> subst hc <;>
              exact isDigitChar_digitChar (by omega)
          · intro _
            simp only [List.headD]
            exact digitChar_ne_zero (by omega) (by omega)
        · refine ⟨by simp [dirlist_format_size, e, hb, h99, h9, hu0], [digitChar sz], ['.', digitChar (min (rem / 100) 9)], unitChars.getD u0 'B', ?_, by simp, by simp, ?_, ?_, unitChars_getD_mem h66, Or.inr ⟨_, rfl, isDigitChar_digitChar hrem9, unitChars_getD_ne_B h16 h66⟩⟩
          · simp [dirlist_format_size, e, hb, h99, h9, hu0]
          · intro c hc
            simp at hc
            subst hc
            exact isDigitChar_digitChar (by omega)
          · intro hlen
            simp at hlen

/-- Witness for C9 at the concrete size 1500. -/
theorem dirlist_format_size_shape_witness :
    1500 < 2 ^ 63 ∧
    ((dirlist_format_size 1500).length ≤ 7 ∧
    ∃ d f u, dirlist_format_size 1500 = d ++ f ++ [u] ∧
      1 ≤ d.length ∧ d.length ≤ 3 ∧ (∀ c ∈ d, isDigitChar c = true) ∧
      (2 ≤ d.length → d.headD '0' ≠ '0') ∧
      u ∈ unitChars ∧
      ((f = [] ∧ u = 'B') ∨ ∃ c, f = ['.', c] ∧ isDigitChar c = true ∧ u ≠ 'B')) :=
  ⟨by norm_num, dirlist_format_size_shape 1500 (by norm_num)⟩

/-- The special file names (mod_dirlist.c:362, 365). -/
def litHEADER : List Char := "HEADER.txt".toList

/-- Constant "README.txt" (mod_dirlist.c:365). -/
def litREADME : List Char := "README.txt".toList

/-- Embedding of `li_string_prefix(str, p)`. Modelled from the spec: li_string_prefix
is not part of this snapshot; the spec reads "Name begins with any string
in exclude-prefix". -/
def strHasPre : List Char → List Char → Bool
  | _, [] => true
  | [], _ :: _ => false
  | c :: s, p :: ps => c = p && strHasPre s ps

/-- Embedding of `li_string_suffix(str, p)`. Modelled from the spec: li_string_suffix
is not part of this snapshot; the spec reads "Name ends with any string in
exclude-suffix". -/
def strHasSuf (s p : List Char) : Bool := strHasPre s.reverse p.reverse

/-- Substring containment, used only to state theorems about the rendered
document. -/
def strContains : List Char → List Char → Bool
  | [], pat => pat.isEmpty
  | c :: t, pat => strHasPre (c :: t) pat || strContains t pat

/-- One directory entry as delivered by the stat cache
(`liStatCacheEntryData`): name, failed flag, mode bit `S_ISDIR`, size and
mtime from the `stat` result. -/
structure Entry where
  path : List Char
  failed : Bool
  isDir : Bool
  size : Nat
  mtime : Int
deriving DecidableEq, Repr

/-- Placeholder entry for out-of-range index lookups (the C code only ever
stores valid indices). -/
def defaultEntry : Entry := ⟨[], false, false, 0, 0⟩

/-- The per-action configuration `dirlist_data` (mod_dirlist.c:124-137). -/
structure DirlistData where
  css : Option (List Char)
  hide_dotfiles : Bool
  hide_tildefiles : Bool
  include_header : Bool
  hide_header : Bool
  encode_header : Bool
  include_readme : Bool
  hide_readme : Bool
  encode_readme : Bool
  hide_directories : Bool
  debug : Bool
  excludeSuffixes : List (List Char)
  excludePrefixes : List (List Char)
  content_type : List Char
deriving DecidableEq, Repr

/-- Test `sced->path->str[0] == '.'` (mod_dirlist.c:332). For an empty GString
`str[0]` is the NUL terminator, never `'.'`. -/
def headIsDot : List Char → Bool
  | '.' :: _ => true
  | _ => false

/-- Test `sced->path->str[sced->path->len-1] == '~'` (mod_dirlist.c:335). For a
non-empty name this is the last character; for an empty name the C index
`len-1` underflows (see `classifyOOB`), here modelled as `false`. -/
def lastIsTilde (s : List Char) : Bool := s.getLast? = some '~'

/-- Where one entry ends up. -/
inductive EAction where
  | skip
  | toDirs
  | toFiles
deriving DecidableEq, Repr

/-- The per-entry decision chain of the classification loop
(mod_dirlist.c:326-370), in source order: failed, dotfile, tildefile,
exclude-suffix, exclude-prefix, directory/hide-directories, then the
HEADER.txt/README.txt special-casing in the file branch. Returns the
destination plus the `have_header`/`have_readme` contributions
(mod_dirlist.c:363, 366). -/
def classifyEntry (dd : DirlistData) (e : Entry) : EAction × Bool × Bool :=
  if e.failed then (.skip, false, false)
  else if dd.hide_dotfiles && headIsDot e.path then (.skip, false, false)
  else if dd.hide_tildefiles && lastIsTilde e.path then (.skip, false, false)
  else if dd.excludeSuffixes.any (fun p => strHasSuf e.path p) then (.skip, false, false)
  else if dd.excludePrefixes.any (fun p => strHasPre e.path p) then (.skip, false, false)
  else if e.isDir then
    (if dd.hide_directories then .skip else .toDirs, false, false)
  else if (dd.include_header || dd.hide_header) && e.path == litHEADER then
    let hh := dd.include_header && decide (0 < e.size) && decide (e.size < 65536)
    ((if dd.hide_header then .skip else .toFiles), hh, false)
  else if (dd.include_readme || dd.hide_readme) && e.path == litREADME then
    let hr := dd.include_readme && decide (0 < e.size) && decide (e.size < 65536)
    ((if dd.hide_readme then .skip else .toFiles), false, hr)
  else (.toFiles, false, false)

/-- The classification loop (mod_dirlist.c:324-371) over the entry list,
collecting the `directories` and `files` index arrays and the
`have_header`/`have_readme` flags; `k` is the index of the first entry of
`es` in the original array. -/
def classifyAux (dd : DirlistData) : List Entry → Nat → List Nat × List Nat × Bool × Bool
  | [], _ => ([], [], false, false)
  | e :: rest, k =>
    let r := classifyAux dd rest (k + 1)
    match classifyEntry dd e with
    | (.skip, hh, hr) => (r.1, r.2.1, hh || r.2.2.1, hr || r.2.2.2)
    | (.toDirs, hh, hr) => (k :: r.1, r.2.1, hh || r.2.2.1, hr || r.2.2.2)
    | (.toFiles, hh, hr) => (r.1, k :: r.2.1, hh || r.2.2.1, hr || r.2.2.2)

/-- Entry classification starting at index 0. -/
def classify (dd : DirlistData) (es : List Entry) : List Nat × List Nat × Bool × Bool :=
  classifyAux dd es 0

/-- Marks the entries at which the C classification loop performs the
out-of-bounds read `sced->path->str[sced->path->len-1]`
(mod_dirlist.c:335): an entry reaches the tilde test when its stat did not
fail and it was not already skipped as a dotfile; with `hide_tildefiles`
set and an empty name, `len-1` underflows. -/
def classifyOOB (dd : DirlistData) (es : List Entry) : Bool :=
  es.any fun e =>
    !e.failed && !(dd.hide_dotfiles && headIsDot e.path) &&
      dd.hide_tildefiles && e.path.isEmpty

/-- The configuration defaults set up by `dirlist_create`
(mod_dirlist.c:516-525): everything zeroed except `hide_dotfiles`,
`hide_tildefiles`, `include_readme`, `encode_header`, `encode_readme`. -/
def defaultDD : DirlistData :=
  { css := none
    hide_dotfiles := true
    hide_tildefiles := true
    include_header := false
    hide_header := false
    encode_header := true
    include_readme := true
    hide_readme := false
    encode_readme := true
    hide_directories := false
    debug := false
    excludeSuffixes := []
    excludePrefixes := []
    content_type := "text/html; charset=utf-8".toList }

lemma classifyEntry_fst_toDirs {dd : DirlistData} {e : Entry}
    (h : (classifyEntry dd e).1 = .toDirs) :
    e.failed = false ∧ e.isDir = true := by
  simp only [classifyEntry] at h
  split_ifs at h
  all_goals simp_all

lemma classifyEntry_fst_toFiles {dd : DirlistData} {e : Entry}
    (h : (classifyEntry dd e).1 = .toFiles) :
    e.failed = false ∧ e.isDir = false := by
  simp only [classifyEntry] at h
  split_ifs at h
  all_goals simp_all

lemma classifyEntry_hh {dd : DirlistData} {e : Entry}
    (h : (classifyEntry dd e).2.1 = true) :
    e.failed = false ∧ e.isDir = false ∧ e.path = litHEADER ∧
      dd.include_header = true ∧ 0 < e.size ∧ e.size < 65536 := by
  simp only [classifyEntry] at h
  split_ifs at h
  all_goals simp_all

lemma classifyEntry_hr {dd : DirlistData} {e : Entry}
    (h : (classifyEntry dd e).2.2 = true) :
    e.failed = false ∧ e.isDir = false ∧ e.path = litREADME ∧
      dd.include_readme = true ∧ 0 < e.size ∧ e.size < 65536 := by
  simp only [classifyEntry] at h
  split_ifs at h
  all_goals simp_all

lemma classifyAux_mem_dirs {dd : DirlistData} :
    ∀ (es : List Entry) (k i : Nat), i ∈ (classifyAux dd es k).1 →
      ∃ j, i = k + j ∧ j < es.length ∧
        (es.getD j defaultEntry).failed = false ∧
        (es.getD j defaultEntry).isDir = true := by
  intro es
  induction es with
  | nil => intro k i h; simp [classifyAux] at h
  | cons e rest ih =>
    intro k i h
    simp only [classifyAux] at h
    rcases hc : classifyEntry dd e with ⟨a, hh, hr⟩
    rw [hc] at h
    cases a with
    | skip =>
      simp only at h
      obtain ⟨j, hj1, hj2, hj3, hj4⟩ := ih (k + 1) i h
      exact ⟨j + 1, by omega, by simp; omega, by simpa using hj3, by simpa using hj4⟩
    | toDirs =>
      simp only [List.mem_cons] at h
      rcases h with h | h
      · subst h
        have := classifyEntry_fst_toDirs (by rw [hc])
        exact ⟨0, by omega, by simp, by simpa using this.1, by simpa using this.2⟩
      · obtain ⟨j, hj1, hj2, hj3, hj4⟩ := ih (k + 1) i h
        exact ⟨j + 1, by omega, by simp; omega, by simpa using hj3, by simpa using hj4⟩
    | toFiles =>
      simp only at h
      obtain ⟨j, hj1, hj2, hj3, hj4⟩ := ih (k + 1) i h
      exact ⟨j + 1, by omega, by simp; omega, by simpa using hj3, by simpa using hj4⟩

lemma classifyAux_mem_files {dd : DirlistData} :
    ∀ (es : List Entry) (k i : Nat), i ∈ (classifyAux dd es k).2.1 →
      ∃ j, i = k + j ∧ j < es.length ∧
        (es.getD j defaultEntry).failed = false ∧
        (es.getD j defaultEntry).isDir = false := by
  intro es
  induction es with
  | nil => intro k i h; simp [classifyAux] at h
  | cons e rest ih =>
    intro k i h
    simp only [classifyAux] at h
    rcases hc : classifyEntry dd e with ⟨a, hh, hr⟩
    rw [hc] at h
    cases a with
    | skip =>
      simp only at h
      obtain ⟨j, hj1, hj2, hj3, hj4⟩ := ih (k + 1) i h
      exact ⟨j + 1, by omega, by simp; omega, by simpa using hj3, by simpa using hj4⟩
    | toDirs =>
      simp only at h
      obtain ⟨j, hj1, hj2, hj3, hj4⟩ := ih (k + 1) i h
      exact ⟨j + 1, by omega, by simp; omega, by simpa using hj3, by simpa using hj4⟩
    | toFiles =>
      simp only [List.mem_cons] at h
      rcases h with h | h
      · subst h
        have := classifyEntry_fst_toFiles (by rw [hc])
        exact ⟨0, by omega, by simp, by simpa using this.1, by simpa using this.2⟩
      · obtain ⟨j, hj1, hj2, hj3, hj4⟩ := ih (k + 1) i h
        exact ⟨j + 1, by omega, by simp; omega, by simpa using hj3, by simpa using hj4⟩

lemma classifyAux_hh {dd : DirlistData} :
    ∀ (es : List Entry) (k : Nat), (classifyAux dd es k).2.2.1 = true →
      ∃ e ∈ es, (classifyEntry dd e).2.1 = true := by
  intro es
  induction es with
  | nil => intro k h; simp [classifyAux] at h
  | cons e rest ih =>
    intro k h
    simp only [classifyAux] at h
    rcases hc : classifyEntry dd e with ⟨a, hh, hr⟩
    rw [hc] at h
    cases a <;> simp only [Bool.or_eq_true] at h <;>
      rcases h with h | h
    all_goals first
      | exact ⟨e, List.mem_cons_self _ _, by rw [hc]; exact h⟩
      | (obtain ⟨e2, he2, hp⟩ := ih (k + 1) h
         exact ⟨e2, List.mem_cons_of_mem _ he2, hp⟩)

lemma classifyAux_hr {dd : DirlistData} :
    ∀ (es : List Entry) (k : Nat), (classifyAux dd es k).2.2.2 = true →
      ∃ e ∈ es, (classifyEntry dd e).2.2 = true := by
  intro es
  induction es with
  | nil => intro k h; simp [classifyAux] at h
  | cons e rest ih =>
    intro k h
    simp only [classifyAux] at h
    rcases hc : classifyEntry dd e with ⟨a, hh, hr⟩
    rw [hc] at h
    cases a <;> simp only [Bool.or_eq_true] at h <;>
      rcases h with h | h
    all_goals first
      | exact ⟨e, List.mem_cons_self _ _, by rw [hc]; exact h⟩
      | (obtain ⟨e2, he2, hp⟩ := ih (k + 1) h
         exact ⟨e2, List.mem_cons_of_mem _ he2, hp⟩)

/-- C7: an entry whose `failed` flag is set is skipped by the
classification loop (mod_dirlist.c:329-330): its index is placed neither
in the `directories` nor in the `files` array, so it never produces a
table row. -/
theorem classify_skips_failed (dd : DirlistData) (es : List Entry) (i : Nat)
    (hf : (es.getD i defaultEntry).failed = true) :
    i ∉ (classify dd es).1 ∧ i ∉ (classify dd es).2.1 := by
  constructor
  · intro hmem
    obtain ⟨j, hj1, _, hj3, _⟩ := classifyAux_mem_dirs es 0 i hmem
    have : j = i := by omega
    subst this
    rw [hf] at hj3
    cases hj3
  · intro hmem
    obtain ⟨j, hj1, _, hj3, _⟩ := classifyAux_mem_files es 0 i hmem
    have : j = i := by omega
    subst this
    rw [hf] at hj3
    cases hj3

/-- Witness for C7: a failed entry named "a.txt" is in neither sequence. -/
theorem classify_skips_failed_witness :
    (([⟨['a'], true, false, 3, 0⟩] : List Entry).getD 0 defaultEntry).failed = true ∧
    (0 ∉ (classify defaultDD [⟨['a'], true, false, 3, 0⟩]).1 ∧
     0 ∉ (classify defaultDD [⟨['a'], true, false, 3, 0⟩]).2.1) :=
  ⟨by decide, classify_skips_failed defaultDD [⟨['a'], true, false, 3, 0⟩] 0 (by decide)⟩

/-- C8: the classification loop sends every entry with the directory mode
bit to the `directories` branch (mod_dirlist.c:358-360), so no directory
index ever appears in `files`, and the HEADER.txt/README.txt
special-casing (mod_dirlist.c:362-368) can only fire for non-directory
entries: whenever `have_header`/`have_readme` is set, some non-failed,
non-directory entry with that exact name exists. -/
theorem classify_dir_never_file (dd : DirlistData) (es : List Entry) :
    (∀ i ∈ (classify dd es).2.1, (es.getD i defaultEntry).isDir = false) ∧
    ((classify dd es).2.2.1 = true →
      ∃ e ∈ es, e.failed = false ∧ e.isDir = false ∧ e.path = litHEADER) ∧
    ((classify dd es).2.2.2 = true →
      ∃ e ∈ es, e.failed = false ∧ e.isDir = false ∧ e.path = litREADME) := by
  refine ⟨?_, ?_, ?_⟩
  · intro i hmem
    obtain ⟨j, hj1, _, _, hj4⟩ := classifyAux_mem_files es 0 i hmem
    have : j = i := by omega
    subst this
    exact hj4
  · intro h
    obtain ⟨e, he, hp⟩ := classifyAux_hh es 0 h
    obtain ⟨h1, h2, h3, _⟩ := classifyEntry_hh hp
    exact ⟨e, he, h1, h2, h3⟩
  · intro h
    obtain ⟨e, he, hp⟩ := classifyAux_hr es 0 h
    obtain ⟨h1, h2, h3, _⟩ := classifyEntry_hr hp
    exact ⟨e, he, h1, h2, h3⟩

/-- Configuration with `include-header` enabled, for the C8 witness. -/
def c8DD : DirlistData := { defaultDD with include_header := true }

/-- Witness for C8: with `include-header` on, a directory named
"HEADER.txt" next to a regular file of the same name; `have_header` is
set by the file, never by the directory. -/
theorem classify_dir_never_file_witness :
    (∀ i ∈ (classify c8DD
        [⟨litHEADER, false, true, 10, 0⟩, ⟨litHEADER, false, false, 10, 0⟩]).2.1,
      (([⟨litHEADER, false, true, 10, 0⟩, ⟨litHEADER, false, false, 10, 0⟩] :
          List Entry).getD i defaultEntry).isDir = false) ∧
    ((classify c8DD
        [⟨litHEADER, false, true, 10, 0⟩, ⟨litHEADER, false, false, 10, 0⟩]).2.2.1 = true →
      ∃ e ∈ ([⟨litHEADER, false, true, 10, 0⟩, ⟨litHEADER, false, false, 10, 0⟩] : List Entry),
        e.failed = false ∧ e.isDir = false ∧ e.path = litHEADER) ∧
    ((classify c8DD
        [⟨litHEADER, false, true, 10, 0⟩, ⟨litHEADER, false, false, 10, 0⟩]).2.2.2 = true →
      ∃ e ∈ ([⟨litHEADER, false, true, 10, 0⟩, ⟨litHEADER, false, false, 10, 0⟩] : List Entry),
        e.failed = false ∧ e.isDir = false ∧ e.path = litREADME) :=
  classify_dir_never_file c8DD
    [⟨litHEADER, false, true, 10, 0⟩, ⟨litHEADER, false, false, 10, 0⟩]

/-- C10: the tilde test `sced->path->str[sced->path->len-1]`
(mod_dirlist.c:335) indexes out of bounds exactly when an entry with an
empty name reaches it with `hide_tildefiles` set (first conjunct: a
concrete such entry list makes `classifyOOB` true); for every entry list
whose names are all non-empty, classification performs no out-of-bounds
index (second conjunct). -/
theorem classify_tilde_oob :
    classifyOOB defaultDD [⟨[], false, false, 0, 0⟩] = true ∧
    ∀ (dd : DirlistData) (es : List Entry),
      (∀ e ∈ es, e.path ≠ []) → classifyOOB dd es = false := by
  refine ⟨by decide, ?_⟩
  intro dd es h
  simp only [classifyOOB, List.any_eq_false]
  intro e he
  have := h e he
  cases hp : e.path with
  | nil => exact absurd hp this
  | cons c t => simp [hp]

/-- Witness for C10's universally quantified conjunct at a concrete
one-entry list. -/
theorem classify_tilde_oob_witness :
    classifyOOB defaultDD [⟨['x'], false, false, 0, 0⟩] = false :=
  classify_tilde_oob.2 defaultDD [⟨['x'], false, false, 0, 0⟩] (by decide)

/-- C3 counterexample: the claim says `dirlist_format_size 1024 = "1.0K"`,
but the loop guard `while (size > 1024)` (mod_dirlist.c:200) does not
fire at exactly 1024, and the saturation step (mod_dirlist.c:209-213)
then turns 1024 into "0.9K". -/
theorem format_size_1024_counterexample :
    dirlist_format_size 1024 ≠ ("1.0K".toList) := by
  have h : dirlist_format_size 1024 = ['0', '.', '9', 'K'] := by
    norm_num [dirlist_format_size, sizeScale_stop, unitChars, digitChar]
  rw [h]
  decide

/-- C3 amended: `dirlist_format_size` maps 0 to "0B", 999 to "999B",
1024 to "0.9K" and 1024*1024 to "0.9M" (mod_dirlist.c:195-233; the first
value needing a scaling step is 1025, which renders as "1.0K"). -/
theorem format_size_values :
    dirlist_format_size 0 = ("0B".toList) ∧
    dirlist_format_size 999 = ("999B".toList) ∧
    dirlist_format_size 1024 = ("0.9K".toList) ∧
    dirlist_format_size (1024 * 1024) = ("0.9M".toList) := by
  refine ⟨?_, ?_, ?_, ?_⟩
  · norm_num [dirlist_format_size, sizeScale_stop, unitChars, digitChar]
  · norm_num [dirlist_format_size, sizeScale_stop, unitChars, digitChar]
  · norm_num [dirlist_format_size, sizeScale_stop, unitChars, digitChar]
  · norm_num [dirlist_format_size, sizeScale_step, sizeScale_stop, unitChars, digitChar]

/-- Modelled from the spec: `li_string_encode(.., LI_ENCODING_URI)` is not
part of this snapshot; per the spec every user-controlled string placed in
an href attribute is URI-escaped. Unreserved characters pass through, any
other byte becomes `%XX`. -/
def uriUnreserved (c : Char) : Bool :=
  c.isAlphanum || c = '-' || c = '.' || c = '_' || c = '~'

/-- Upper-case hex digit for `n < 16`. -/
def hexDigitChar (n : Nat) : Char :=
  if n < 10 then Char.ofNat (n + 48) else Char.ofNat (n + 55)

/-- Modelled from the spec: URI percent-encoding of one byte. -/
def uriEncodeChar (c : Char) : List Char :=
  if uriUnreserved c then [c]
  else ['%', hexDigitChar (c.toNat / 16 % 16), hexDigitChar (c.toNat % 16)]

/-- Modelled from the spec: URI-encoding of a name. -/
def uriEncode : List Char → List Char
  | [] => []
  | c :: rest => uriEncodeChar c ++ uriEncode rest

/-- Value of a hex digit character. -/
def hexVal (c : Char) : Nat :=
  if 48 ≤ c.toNat ∧ c.toNat ≤ 57 then c.toNat - 48
  else if 65 ≤ c.toNat ∧ c.toNat ≤ 70 then c.toNat - 55
  else 0

/-- Modelled from the spec: URI percent-decoding, the inverse reading used
to state the round-trip property. -/
def uriDecode : List Char → List Char
  | [] => []
  | c :: rest =>
    if c = '%' then
      match rest with
      | h1 :: h2 :: r2 => Char.ofNat (hexVal h1 * 16 + hexVal h2) :: uriDecode r2
      | r => c :: uriDecode r
    else c :: uriDecode rest

/-- Modelled from the spec: `li_string_encode(.., LI_ENCODING_HTML)` is
not part of this snapshot; per the spec every user-controlled string
placed in element text is HTML-escaped. The four HTML metacharacters
become entities, everything else passes through. -/
def htmlEncodeChar (c : Char) : List Char :=
  if c = '<' then ['&', 'l', 't', ';']
  else if c = '>' then ['&', 'g', 't', ';']
  else if c = '&' then ['&', 'a', 'm', 'p', ';']
  else if c = '"' then ['&', 'q', 'u', 'o', 't', ';']
  else [c]

/-- Modelled from the spec: HTML-encoding of a name. -/
def htmlEncode : List Char → List Char
  | [] => []
  | c :: rest => htmlEncodeChar c ++ htmlEncode rest

/-- Modelled from the spec: HTML entity decoding, the inverse reading used
to state the round-trip property. -/
def htmlDecode : List Char → List Char
  | [] => []
  | c :: rest =>
    if c = '&' then
      match rest with
      | 'l' :: 't' :: ';' :: r2 => '<' :: htmlDecode r2
      | 'g' :: 't' :: ';' :: r2 => '>' :: htmlDecode r2
      | 'a' :: 'm' :: 'p' :: ';' :: r2 => '&' :: htmlDecode r2
      | 'q' :: 'u' :: 'o' :: 't' :: ';' :: r2 => '"' :: htmlDecode r2
      | r => c :: htmlDecode r
    else c :: htmlDecode rest

lemma hexVal_hexDigitChar {n : Nat} (h : n < 16) :
    hexVal (hexDigitChar n) = n := by
  interval_cases n <;> decide

lemma uriDecode_uriEncode_append :
    ∀ s t : List Char, (∀ c ∈ s, c.toNat < 256) →
      uriDecode (uriEncode s ++ t) = s ++ uriDecode t := by
  intro s t
  induction s with
  | nil => intro _; rfl
  | cons c rest ih =>
    intro h
    have hc : c.toNat < 256 := h c (List.mem_cons_self _ _)
    have hrest := ih fun x hx => h x (List.mem_cons_of_mem _ hx)
    simp only [uriEncode, uriEncodeChar]
    by_cases hu : uriUnreserved c = true
    · have hne : c ≠ '%' := by
        intro he
        subst he
        exact absurd hu (by decide)
      simp only [hu, if_pos, List.cons_append, List.nil_append, List.append_assoc]
      conv_lhs => rw [uriDecode.eq_def]
      simp [hne, hrest]
    · simp only [hu, Bool.false_eq_true, if_false, List.cons_append,
        List.nil_append, List.append_assoc, uriDecode, if_pos]
      rw [hexVal_hexDigitChar (by omega), hexVal_hexDigitChar (by omega), hrest]
      have hval : c.toNat / 16 % 16 * 16 + c.toNat % 16 = c.toNat := by omega
      rw [hval, Char.ofNat_toNat c]

lemma uriDecode_uriEncode (s : List Char) (h : ∀ c ∈ s, c.toNat < 256) :
    uriDecode (uriEncode s) = s := by
  have := uriDecode_uriEncode_append s [] h
  simpa [uriDecode] using this

lemma htmlDecode_htmlEncode :
    ∀ s : List Char, htmlDecode (htmlEncode s) = s := by
  intro s
  induction s with
  | nil => rfl
  | cons c rest ih =>
    simp only [htmlEncode, htmlEncodeChar]
    by_cases h1 : c = '<'
    · subst h1; simp [htmlDecode, ih]
    · by_cases h2 : c = '>'
      · subst h2; simp [htmlDecode, ih]
      · by_cases h3 : c = '&'
        · subst h3; simp [htmlDecode, ih]
        · by_cases h4 : c = '"'
          · subst h4; simp [htmlDecode, ih]
          · simp only [h1, h2, h3, h4, if_false, List.cons_append,
              List.nil_append]
            conv_lhs => rw [htmlDecode.eq_def]
            simp [h3, ih]

/-- The href attribute of a directory row: the URI-encoded entry name
followed by "/" (mod_dirlist.c:403-406 appends the encoded name, then
the literal `"/\">`). -/
def dirRowHref (name : List Char) : List Char := uriEncode name ++ ['/']

/-- The visible link text of a directory row: the HTML-encoded entry name
(mod_dirlist.c:407-408). -/
def dirRowText (name : List Char) : List Char := htmlEncode name

/-- The href attribute of a file row: the URI-encoded entry name
(mod_dirlist.c:432-435). -/
def fileRowHref (name : List Char) : List Char := uriEncode name

/-- The visible link text of a file row: the HTML-encoded entry name
(mod_dirlist.c:436-437). -/
def fileRowText (name : List Char) : List Char := htmlEncode name

/-- C5 counterexample: for a directory entry named "d" the generated href
attribute is "d/" (the code appends "/" inside the quoted attribute,
mod_dirlist.c:406), so URI-decoding it does not give back the entry
name. -/
theorem dir_href_roundtrip_counterexample :
    uriDecode (dirRowHref ['d']) ≠ ['d'] := by decide

/-- C5 amended: for every entry name made of bytes, URI-decoding a file
row's href gives back exactly the name, URI-decoding a directory row's
href gives back the name followed by "/", and HTML-decoding the visible
link text gives back exactly the name for both row kinds — including
names containing `<`, `&`, `%` or space. -/
theorem row_roundtrip (name : List Char) (h : ∀ c ∈ name, c.toNat < 256) :
    uriDecode (fileRowHref name) = name ∧
    uriDecode (dirRowHref name) = name ++ ['/'] ∧
    htmlDecode (fileRowText name) = name ∧
    htmlDecode (dirRowText name) = name := by
  refine ⟨uriDecode_uriEncode name h, ?_, htmlDecode_htmlEncode name,
    htmlDecode_htmlEncode name⟩
  rw [dirRowHref, uriDecode_uriEncode_append name ['/'] h]
  simp [uriDecode]

/-- Witness for C5's amended round-trip at the name `a<b& c%`. -/
theorem row_roundtrip_witness :
    uriDecode (fileRowHref ("a<b& c%".toList)) = ("a<b& c%".toList) ∧
    uriDecode (dirRowHref ("a<b& c%".toList)) = ("a<b& c%".toList) ++ ['/'] ∧
    htmlDecode (fileRowText ("a<b& c%".toList)) = ("a<b& c%".toList) ∧
    htmlDecode (dirRowText ("a<b& c%".toList)) = ("a<b& c%".toList) :=
  row_roundtrip ("a<b& c%".toList) (by decide)

/-- Output sink content: either buffered bytes or a spliced file segment
(`li_chunkqueue_append_string` / `li_chunkqueue_append_file_fd`). -/
inductive Chunk where
  | str (s : List Char)
  | file (path : List Char) (size : Nat)
deriving DecidableEq, Repr

/-- External collaborators of the generator, modelled from the spec: the
filesystem read primitive used by `try_append_file` (open/fstat and
`g_file_get_contents`), `li_mimetype_get`, the `strftime`-based local time
formatter, and the server tag used in the footer. -/
structure Env where
  fs : List Char → Option (List Char)
  mime : List Char → Option (List Char)
  fmtTime : Int → List Char
  serverTag : List Char

/-- Request method as far as `dirlist` distinguishes it
(mod_dirlist.c:242-248). -/
inductive Method where
  | get
  | head
  | other
deriving DecidableEq, Repr

/-- GET and HEAD are the only eligible methods (mod_dirlist.c:242-245). -/
def methodAllowed : Method → Bool
  | .get => true
  | .head => true
  | .other => false

/-- The request state `dirlist` reads: method, whether an earlier handler
already answered, whether `li_vrequest_handle_direct` succeeds, the
physical path and the request URI path. -/
structure VRequest where
  method : Method
  handled : Bool
  handleDirectOk : Bool
  physicalPath : List Char
  uriPath : List Char

/-- The stat errors `dirlist` distinguishes (mod_dirlist.c:268-278). -/
inductive Errno where
  | enoent
  | enotdir
  | eacces
  | eother
deriving DecidableEq, Repr

/-- Stat cache entry for the listed directory: failure flag and errno,
directory mode bit, the ETag freshness decision of `li_etag_set_header`
(modelled from the spec as an input), and the entry list. -/
structure Sce where
  failed : Bool
  err : Errno
  isDir : Bool
  cachable : Bool
  entries : List Entry

/-- Result of `li_stat_cache_get_dirlist` (mod_dirlist.c:254-258),
modelled from the spec as an input. -/
inductive StatCacheResult where
  | ready (sce : Sce)
  | waitEvent
  | statFail

/-- Embedding of `liHandlerResult` as `dirlist` returns it. -/
inductive HandlerResult where
  | goOn
  | waitForEvent
  | handlerError
deriving DecidableEq, Repr

/-- Observable outcome of one `dirlist` invocation: handler result, the
response status if one was set, the Content-Type header if set, whether
`li_vrequest_redirect_directory` was called, and what was appended to the
output sink `vr->out`. -/
structure DResult where
  res : HandlerResult
  status : Option Nat
  contentType : Option (List Char)
  redirected : Bool
  out : List Chunk
deriving DecidableEq, Repr

/-- A pass-through return (`LI_HANDLER_GO_ON` with no side effects). -/
def drGoOn : DResult := ⟨.goOn, none, none, false, []⟩

/-- Embedding of `li_path_append_slash`. Modelled from the spec: the helper is not part
of this snapshot; it appends a slash unless the path already ends in
one. -/
def li_path_append_slash (s : List Char) : List Char :=
  if s.getLast? = some '/' then s else s ++ ['/']

/-- Decimal rendering of a signed value (`li_string_append_int`). -/
def intToChars (i : Int) : List Char := (toString i).toList

/-- Decimal rendering of a size value. -/
def natToChars (n : Nat) : List Char := (toString n).toList

/-- Concatenation of rendered rows. -/
def catLists : List (List Char) → List Char
  | [] => []
  | l :: ls => l ++ catLists ls

/-- Embedding of `try_append_file` (mod_dirlist.c:145-193): resolve `filename` under
the physical path; with `encode_html` false, open/stat the file, skip
silently on failure or when the size exceeds 64 KiB, otherwise flush the
current buffer to the sink and splice the file as an out-of-band segment,
starting a fresh buffer; with `encode_html` true, read the whole file,
skip silently on failure or oversize, otherwise append
`<pre>` + HTML-escaped contents + `</pre>` to the current buffer.
Returns the new current buffer and the chunks appended to the sink. -/
def try_append_file (env : Env) (physicalPath filename : List Char)
    (encode_html : Bool) (curbuf : List Char) (out : List Chunk) :
    List Char × List Chunk :=
  let f := li_path_append_slash physicalPath ++ filename
  match env.fs f with
  | none => (curbuf, out)
  | some contents =>
    if 65536 < contents.length then (curbuf, out)
    else if encode_html then
      (curbuf ++ ("<pre>".toList) ++ htmlEncode contents ++ ("</pre>".toList), out)
    else
      ([], out ++ [Chunk.str curbuf, Chunk.file f contents.length])

/-- Constant `html_header_start` (mod_dirlist.c:73-79) up to the `%s` for the URI
path. -/
def litHtmlHeaderPre : List Char :=
  ("<?xml version=\"1.0\" encoding=\"iso-8859-1\"?>\n<!DOCTYPE html PUBLIC \"-//W3C//DTD XHTML 1.0 Transitional//EN\"\n         \"http://www.w3.org/TR/xhtml1/DTD/xhtml1-transitional.dtd\">\n<html xmlns=\"http://www.w3.org/1999/xhtml\" xml:lang=\"en\" lang=\"en\">\n\t<head>\n\t\t<title>Index of ").toList

/-- Constant `html_header_start` after the `%s`. -/
def litHtmlHeaderPost : List Char := ("</title>\n").toList

/-- Constant `html_header_end` (mod_dirlist.c:81-83). -/
def html_header_end : List Char := ("\t</head>\n\t<body>\n").toList

/-- Constant `html_table_start` (mod_dirlist.c:85-90) up to the `%s`. -/
def litTableStartPre : List Char := ("\t\t<h2 id=\"title\">Index of ").toList

/-- Constant `html_table_start` after the `%s`. -/
def litTableStartPost : List Char :=
  ("</h2>\n\t\t<div id=\"dirlist\">\n\t\t\t<table summary=\"Directory Listing\" cellpadding=\"0\" cellspacing=\"0\">\n\t\t\t\t<thead><tr><th id=\"name\">Name</th><th id=\"modified\">Last Modified</th><th id=\"size\">Size</th><th id=\"type\">Type</th></tr></thead>\n\t\t\t\t<tbody>\n").toList

/-- Constant `html_table_end` (mod_dirlist.c:98-101). -/
def html_table_end : List Char :=
  ("\t\t\t\t</tbody>\n\t\t\t</table>\n\t\t</div>\n").toList

/-- Constant `html_footer` (mod_dirlist.c:103-106) up to the `%s` for the server
tag. -/
def litFooterPre : List Char := ("\t<div id=\"footer\">").toList

/-- Constant `html_footer` after the `%s`. -/
def litFooterPost : List Char := ("</div>\n\t</body>\n</html>").toList

/-- Constant `html_css` (mod_dirlist.c:108-122), the built-in stylesheet. -/
def html_css : List Char :=
  ("<style type=\"text/css\">\n\tbody \x7b background-color: #F5F5F5; \x7d\n\th2#title \x7b margin-bottom: 12px; \x7d\n\ta, a:active \x7b text-decoration: none; color: blue; \x7d\n\ta:visited \x7b color: #48468F; \x7d\n\ta:hover, a:focus \x7b text-decoration: underline; color: red; \x7d\n\ttable \x7b margin-left: 12px; \x7d\n\tth, td \x7b font: 90% monospace; text-align: left; \x7d\n\tth \x7b font-weight: bold; padding-right: 14px; padding-bottom: 3px; \x7d\n\ttd \x7b padding-right: 14px; \x7d\n\ttd.size, th#size \x7b text-align: right; \x7d\n\t#dirlist \x7b background-color: white; border-top: 1px solid #646464; border-bottom: 1px solid #646464; padding-top: 10px; padding-bottom: 14px; \x7d\n\tdiv#footer \x7b font: 90% monospace; color: #787878; padding-top: 4px; \x7d\n</style>\n").toList

/-- The custom-CSS link fragment (mod_dirlist.c:378) before the URL. -/
def litCssLinkPre : List Char :=
  ("\t\t<link rel=\"stylesheet\" type=\"text/css\" href=\"").toList

/-- The custom-CSS link fragment (mod_dirlist.c:380) after the URL. -/
def litCssLinkPost : List Char := ("\" />\n").toList

/-- The synthetic first row (mod_dirlist.c:391-392): `html_table_row`
instantiated with `../`, "Parent Directory", mtime 0 with empty date,
size 0 shown as "-", type "Directory". -/
def parentRow : List Char :=
  ("\t\t\t\t<tr><td><a href=\"../\">Parent Directory</a></td><td class=\"modified\" val=\"0\"></td><td class=\"size\" val=\"0\">-</td><td class=\"type\">Directory</td></tr>\n").toList

/-- Row fragment (mod_dirlist.c:403, 432). -/
def litRowStart : List Char := ("\t\t\t\t<tr><td><a href=\"").toList

/-- Closes the href attribute and the anchor opening tag. -/
def litAttrClose : List Char := ("\">").toList

/-- Row fragment between link text and mtime value
(mod_dirlist.c:409, 438-440). -/
def litRowMid : List Char := ("</a></td><td class=\"modified\" val=\"").toList

/-- Closes an attribute value (mod_dirlist.c:411, 442, 446). -/
def litQuoteGt : List Char := ("\">").toList

/-- Directory row tail (mod_dirlist.c:413-415). -/
def litDirRowTail : List Char :=
  ("</td><td class=\"size\" val=\"0\">-</td><td class=\"type\">Directory</td></tr>\n").toList

/-- File row fragment before the byte count (mod_dirlist.c:444). -/
def litSizeVal : List Char := ("</td><td class=\"size\" val=\"").toList

/-- File row fragment before the MIME type (mod_dirlist.c:448). -/
def litTypeOpen : List Char := ("</td><td class=\"type\">").toList

/-- Fallback MIME type (mod_dirlist.c:452). -/
def litOctetStream : List Char := ("application/octet-stream").toList

/-- File/directory row terminator (mod_dirlist.c:454). -/
def litRowEnd : List Char := ("</td></tr>\n").toList

/-- One directory row (mod_dirlist.c:396-416): href is the URI-encoded
name plus "/", text the HTML-encoded name, mtime as sortable attribute
and formatted date, size fixed to "-", type "Directory". -/
def dirRow (env : Env) (e : Entry) : List Char :=
  litRowStart ++ dirRowHref e.path ++ litAttrClose ++ dirRowText e.path ++
    litRowMid ++ intToChars e.mtime ++ litQuoteGt ++ env.fmtTime e.mtime ++
    litDirRowTail

/-- One file row (mod_dirlist.c:422-454): href is the URI-encoded name,
text the HTML-encoded name, mtime attribute and date, exact byte count as
attribute with the formatted size as display text, MIME type or the
octet-stream fallback. -/
def fileRow (env : Env) (e : Entry) : List Char :=
  litRowStart ++ fileRowHref e.path ++ litAttrClose ++ fileRowText e.path ++
    litRowMid ++ intToChars e.mtime ++ litQuoteGt ++ env.fmtTime e.mtime ++
    litSizeVal ++ natToChars e.size ++ litQuoteGt ++
    dirlist_format_size e.size ++ litTypeOpen ++
    (match env.mime e.path with
     | some m => m
     | none => litOctetStream) ++ litRowEnd

/-- The RENDER step (mod_dirlist.c:318-474): classify the entries, then
assemble prologue, CSS, HEADER.txt inclusion, table with the parent row,
directory rows, file rows, table end, README.txt inclusion and footer.
Both `try_append_file` calls pass `dd.encode_header`, exactly as the
source does (mod_dirlist.c:387 and mod_dirlist.c:467 — the latter is the
source's own choice, not `encode_readme`), and neither call is guarded by
`include_header`/`include_readme` (the computed `have_header`/
`have_readme` flags are never read). Returns the chunks appended to
`vr->out`. -/
def renderListing (dd : DirlistData) (vr : VRequest) (env : Env)
    (entries : List Entry) : List Chunk :=
  let cls := classify dd entries
  let curbuf := litHtmlHeaderPre ++ vr.uriPath ++ litHtmlHeaderPost ++
    (match dd.css with
     | some c => litCssLinkPre ++ c ++ litCssLinkPost
     | none => html_css) ++ html_header_end
  let hb := try_append_file env vr.physicalPath litHEADER dd.encode_header curbuf []
  let curbuf := hb.1 ++ litTableStartPre ++ vr.uriPath ++ litTableStartPost ++
    parentRow
  let curbuf := curbuf ++
    (if dd.hide_directories then []
     else catLists (cls.1.map fun i => dirRow env (entries.getD i defaultEntry)))
  let curbuf := curbuf ++
    catLists (cls.2.1.map fun i => fileRow env (entries.getD i defaultEntry))
  let curbuf := curbuf ++ html_table_end
  let rb := try_append_file env vr.physicalPath litREADME dd.encode_header curbuf hb.2
  let curbuf := rb.1 ++ litFooterPre ++ env.serverTag ++ litFooterPost
  rb.2 ++ [Chunk.str curbuf]

/-- The handler `dirlist` (mod_dirlist.c:235-480) as a function of the
request state, the stat cache answer and the environment: pass on
non-GET/HEAD, already-handled or empty-path requests; propagate
wait/error from the stat cache; map stat failures per errno
(mod_dirlist.c:262-279); pass on non-directories; redirect when the URI
path lacks its trailing slash (mod_dirlist.c:283-286); otherwise claim
the response, set status 200 and Content-Type, and either short-circuit
to 304 when the ETag matched (mod_dirlist.c:311-316) or render. -/
def dirlist (dd : DirlistData) (vr : VRequest) (scr : StatCacheResult)
    (env : Env) : DResult :=
  if methodAllowed vr.method = false then drGoOn
  else if vr.handled then drGoOn
  else if vr.physicalPath.isEmpty then drGoOn
  else
    match scr with
    | .waitEvent => ⟨.waitForEvent, none, none, false, []⟩
    | .statFail => ⟨.handlerError, none, none, false, []⟩
    | .ready sce =>
      if sce.failed then
        match sce.err with
        | .enoent => drGoOn
        | .enotdir => drGoOn
        | .eacces =>
          if vr.handleDirectOk then ⟨.goOn, some 403, none, false, []⟩
          else ⟨.handlerError, none, none, false, []⟩
        | .eother => ⟨.handlerError, none, none, false, []⟩
      else if sce.isDir = false then drGoOn
      else if vr.uriPath.getLast? ≠ some '/' then ⟨.goOn, none, none, true, []⟩
      else if vr.handleDirectOk = false then ⟨.handlerError, none, none, false, []⟩
      else if sce.cachable then
        ⟨.goOn, some 304, some dd.content_type, false, []⟩
      else
        ⟨.goOn, some 200, some dd.content_type, false,
          renderListing dd vr env sce.entries⟩

/-- Embedding of `liValue` as far as `dirlist_create` inspects it: runtime-tagged
configuration values. -/
inductive LiValue where
  | vstr (s : List Char)
  | vbool (b : Bool)
  | vnum (n : Int)
  | vlist (l : List LiValue)

/-- The C exclude-suffix/prefix element read
`g_array_index(v->data.list, liValue*, j)->data.string`
(mod_dirlist.c:630, 645): the element's `data.string` union member is
read without checking the element's type — the guard at
mod_dirlist.c:625/640 re-tests `v->type` (the list itself), which cannot
fail there. For a string element this is its string; for any other
element the C reads a reinterpreted union (undefined behavior), modelled
here by an unspecified placeholder value. -/
def valueRawString : LiValue → List Char
  | .vstr s => s
  | _ => []

/-- One `(key, value)` pair of the `dirlist_create` option loop
(mod_dirlist.c:528-667): the pair must be a two-element list whose first
element is a string; recognized keys type-check their value and update
the configuration; an unknown key is an error (`none`). -/
def applyPair (d : DirlistData) (p : LiValue) : Option DirlistData :=
  match p with
  | .vlist [.vstr k, v] =>
    if k == ("sort".toList) then
      match v with
      | .vstr _ => some d
      | _ => none
    else if k == ("css".toList) then
      match v with
      | .vstr s2 => some { d with css := some s2 }
      | _ => none
    else if k == ("hide-dotfiles".toList) then
      match v with
      | .vbool b => some { d with hide_dotfiles := b }
      | _ => none
    else if k == ("hide-tildefiles".toList) then
      match v with
      | .vbool b => some { d with hide_tildefiles := b }
      | _ => none
    else if k == ("hide-directories".toList) then
      match v with
      | .vbool b => some { d with hide_directories := b }
      | _ => none
    else if k == ("include-header".toList) then
      match v with
      | .vbool b => some { d with include_header := b }
      | _ => none
    else if k == ("hide-header".toList) then
      match v with
      | .vbool b => some { d with hide_header := b }
      | _ => none
    else if k == ("encode-header".toList) then
      match v with
      | .vbool b => some { d with encode_header := b }
      | _ => none
    else if k == ("include-readme".toList) then
      match v with
      | .vbool b => some { d with include_readme := b }
      | _ => none
    else if k == ("hide-readme".toList) then
      match v with
      | .vbool b => some { d with hide_readme := b }
      | _ => none
    else if k == ("encode-readme".toList) then
      match v with
      | .vbool b => some { d with encode_readme := b }
      | _ => none
    else if k == ("exclude-suffix".toList) then
      match v with
      | .vlist l => some { d with excludeSuffixes := d.excludeSuffixes ++ l.map valueRawString }
      | _ => none
    else if k == ("exclude-prefix".toList) then
      match v with
      | .vlist l => some { d with excludePrefixes := d.excludePrefixes ++ l.map valueRawString }
      | _ => none
    else if k == ("debug".toList) then
      match v with
      | .vbool b => some { d with debug := b }
      | _ => none
    else if k == ("content-type".toList) then
      match v with
      | .vstr s2 => some { d with content_type := s2 }
      | _ => none
    else none
  | _ => none

/-- The option loop of `dirlist_create`, folding each pair over the
configuration and failing as soon as one pair is rejected. -/
def applyPairs : DirlistData → List LiValue → Option DirlistData
  | d, [] => some d
  | d, p :: rest =>
    match applyPair d p with
    | none => none
    | some d2 => applyPairs d2 rest

/-- Embedding of `dirlist_create` (mod_dirlist.c:504-671): a missing value yields the
default configuration; a non-list value is a configuration error; a list
is processed pair by pair. `none` models the NULL action returned after
an `ERROR(...)` report. -/
def dirlist_create (val : Option LiValue) : Option DirlistData :=
  match val with
  | none => some defaultDD
  | some (.vlist pairs) => applyPairs defaultDD pairs
  | some _ => none

/-- C4: the configuration `dirlist ("exclude-suffix" => (true))` carries a
non-string element inside the exclude-suffix list. The claim says setup
rejects it; the code accepts it, because the element type check at
mod_dirlist.c:625 re-tests the list's own type (a copy-paste slip — the
error message there reads "must be a list of strings") and then reads the
non-string element's union as a string. -/
theorem dirlist_create_accepts_nonstring_exclude :
    (dirlist_create (some (.vlist [.vlist [.vstr ("exclude-suffix".toList),
        .vlist [.vbool true]]]))).isSome = true ∧
    dirlist_create (some (.vlist [.vlist [.vstr ("exclude-suffix".toList),
        .vlist [.vbool true]]])) =
      some { defaultDD with excludeSuffixes := [valueRawString (.vbool true)] } := by
  constructor
  · rfl
  · rfl

/-- C6: when the ETag validator says the client's copy is fresh
(`cachable`), `dirlist` sets status 304 and returns at once
(mod_dirlist.c:311-316): nothing is appended to the output sink, and the
result does not depend on the directory's entry list or on the
environment (filesystem, MIME lookup, time formatting, server tag) — no
filtering, classification or rendering work is observable. -/
theorem dirlist_304_short_circuit (dd : DirlistData) (vr : VRequest)
    (sce : Sce) (env env2 : Env) (es2 : List Entry)
    (h1 : methodAllowed vr.method = true) (h2 : vr.handled = false)
    (h3 : vr.physicalPath.isEmpty = false) (h4 : sce.failed = false)
    (h5 : sce.isDir = true) (h6 : vr.uriPath.getLast? = some '/')
    (h7 : vr.handleDirectOk = true) (h8 : sce.cachable = true) :
    (dirlist dd vr (.ready sce) env).status = some 304 ∧
    (dirlist dd vr (.ready sce) env).out = [] ∧
    dirlist dd vr (.ready { sce with entries := es2 }) env2 =
      dirlist dd vr (.ready sce) env := by
  simp [dirlist, h1, h2, h3, h4, h5, h6, h7, h8]

/-- Witness request for the C6/C1/C2 evaluations: GET, not yet handled,
direct handling succeeds, physical path "/d", URI path "/d/". -/
def wVR : VRequest := ⟨.get, false, true, "/d".toList, "/d/".toList⟩

/-- A fresh (cachable) stat result with a non-empty entry list. -/
def wSce : Sce := ⟨false, .eother, true, true, [⟨['a'], false, false, 5, 0⟩]⟩

/-- An environment with an empty filesystem. -/
def wEnv : Env := ⟨fun _ => none, fun _ => none, fun _ => [], []⟩

/-- A second environment, differing in filesystem and server tag. -/
def wEnv2 : Env := ⟨fun _ => some ['x'], fun _ => none, fun _ => [], ['t']⟩

/-- Witness for C6 at a concrete cachable request. -/
theorem dirlist_304_short_circuit_witness :
    (dirlist defaultDD wVR (.ready wSce) wEnv).status = some 304 ∧
    (dirlist defaultDD wVR (.ready wSce) wEnv).out = [] ∧
    dirlist defaultDD wVR (.ready { wSce with entries := [] }) wEnv2 =
      dirlist defaultDD wVR (.ready wSce) wEnv :=
  dirlist_304_short_circuit defaultDD wVR wSce wEnv wEnv2 []
    (by decide) (by decide) (by decide) (by decide) (by decide) (by decide)
    (by decide) (by decide)

/-- The buffered text of an output chunk list (spliced file segments
contribute no buffered bytes). -/
def outText : List Chunk → List Char
  | [] => []
  | Chunk.str t :: rest => t ++ outText rest
  | Chunk.file _ _ :: rest => outText rest

/-- Whether the chunk list contains a spliced file segment for `q`. -/
def hasFileChunk : List Chunk → List Char → Bool
  | [], _ => false
  | Chunk.file p _ :: rest, q => p == q || hasFileChunk rest q
  | _ :: rest, q => hasFileChunk rest q

/-- C1 configuration: the defaults (so `include_header = false`,
`encode_header = true`) with a short custom stylesheet URL. -/
def c1DD : DirlistData := { defaultDD with css := some ['c'] }

/-- C1 filesystem: the listed directory contains a 2-byte HEADER.txt. -/
def c1Env : Env :=
  ⟨fun p => if p = ("/d/HEADER.txt".toList) then some ("hi".toList) else none,
   fun _ => none, fun _ => [], []⟩

/-- A non-cachable stat result for an empty directory listing. -/
def c1Sce : Sce := ⟨false, .eother, true, false, []⟩

set_option maxRecDepth 100000 in
/-- C1: with `include-header` left at its default `false` and a small
HEADER.txt present, the rendered document still contains the inlined
`<pre>hi</pre>` content: the call at mod_dirlist.c:387 is not guarded by
`dd->include_header` (the `have_header` flag computed at
mod_dirlist.c:363 is never read), contradicting the module's own option
documentation (mod_dirlist.c:22, default false). -/
theorem dirlist_header_included_despite_option_off :
    c1DD.include_header = false ∧
    strContains (outText (dirlist c1DD wVR (.ready c1Sce) c1Env).out)
      ("<pre>hi</pre>".toList) = true := by
  constructor
  · rfl
  · rfl

/-- C2 configuration: `encode-header` set to false, `encode-readme` left
at its default `true`, short custom stylesheet URL. -/
def c2DD : DirlistData := { defaultDD with css := some ['c'], encode_header := false }

/-- C2 filesystem: the listed directory contains a 1-byte README.txt. -/
def c2Env : Env :=
  ⟨fun p => if p = ("/d/README.txt".toList) then some ['x'] else none,
   fun _ => none, fun _ => [], []⟩

set_option maxRecDepth 100000 in
/-- C2: with `encode_readme = true` but `encode_header = false`, the
README.txt content is spliced into the output as a raw file segment and
no `<pre>` wrapper or HTML-escaped copy is produced: the call at
mod_dirlist.c:467 passes `dd->encode_header`, not `dd->encode_readme`,
contradicting the module's own option documentation
(mod_dirlist.c:28). -/
theorem dirlist_readme_ignores_encode_readme :
    c2DD.encode_readme = true ∧ c2DD.encode_header = false ∧
    hasFileChunk (dirlist c2DD wVR (.ready c1Sce) c2Env).out
      ("/d/README.txt".toList) = true ∧
    strContains (outText (dirlist c2DD wVR (.ready c1Sce) c2Env).out)
      ("<pre>".toList) = false := by
  refine ⟨rfl, rfl, rfl, ?_⟩
  rfl
